import Mathlib

/-! Helper lemmas for the candidate-generation claims. -/

/-- One character of the class `[a-z0-9]` — the characters kept by the source's
`replace(/[^a-z0-9]/g, '')` after lowercasing. -/
def isLowerAlnum (c : Char) : Bool :=
  ('a' ≤ c && c ≤ 'z') || ('0' ≤ c && c ≤ '9')

/-- Name normalization from the source: `name.toLowerCase().replace(/[^a-z0-9]/g, '')`
(ASCII lowering; the source's `toLowerCase` agrees on ASCII input). -/
def normalizeName (s : List Char) : List Char :=
  (s.map Char.toLower).filter isLowerAlnum

namespace EMAIL_PATTERNS

def FIRST_DOT_LAST : List Char := "first.last".data

def FIRST_LAST : List Char := "firstlast".data

def FIRST_DOT_LAST_INITIAL : List Char := "first.l".data

def FIRST_INITIAL_LAST : List Char := "f.last".data

def FIRST_INITIAL_DOT_LAST : List Char := "f.last".data

def FIRST : List Char := "first".data

def LAST : List Char := "last".data

def FIRST_INITIAL_LAST_INITIAL : List Char := "fl".data

def LAST_DOT_FIRST : List Char := "last.first".data

def LAST_FIRST : List Char := "lastfirst".data

end EMAIL_PATTERNS

/-- `generatePossibleEmails` from the source: the eleven candidate addresses, in the
source's fixed order.  `charAt(0)` on a possibly-empty string is `take 1`
(JavaScript yields the empty string on empty input). -/
def generatePossibleEmails (firstName lastName domain : List Char) : List (List Char) :=
  let first := normalizeName firstName
  let last := normalizeName lastName
  let firstInitial := first.take 1
  let lastInitial := last.take 1
  [ (first ++ '.' :: last) ++ '@' :: domain,
    (first ++ last) ++ '@' :: domain,
    first ++ '@' :: domain,
    last ++ '@' :: domain,
    (firstInitial ++ last) ++ '@' :: domain,
    (first ++ lastInitial) ++ '@' :: domain,
    (firstInitial ++ '.' :: last) ++ '@' :: domain,
    (first ++ '.' :: lastInitial) ++ '@' :: domain,
    (last ++ '.' :: first) ++ '@' :: domain,
    (last ++ first) ++ '@' :: domain,
    (firstInitial ++ lastInitial) ++ '@' :: domain ]

/-- `getEmailFormat` from the source.  `email.split('@')[0]` is the part of the
address before the first `'@'`. -/
def getEmailFormat (firstName lastName email : List Char) : List Char :=
  let first := normalizeName firstName
  let last := normalizeName lastName
  let firstInitial := first.take 1
  let lastInitial := last.take 1
  let localPart := email.takeWhile (· != '@')
  if localPart = first ++ '.' :: last then EMAIL_PATTERNS.FIRST_DOT_LAST
  else if localPart = first ++ last then EMAIL_PATTERNS.FIRST_LAST
  else if localPart = firstInitial ++ last then EMAIL_PATTERNS.FIRST_INITIAL_LAST
  else if localPart = first ++ '.' :: lastInitial then EMAIL_PATTERNS.FIRST_DOT_LAST_INITIAL
  else if localPart = firstInitial ++ '.' :: last then EMAIL_PATTERNS.FIRST_INITIAL_DOT_LAST
  else if localPart = first then EMAIL_PATTERNS.FIRST
  else if localPart = last then EMAIL_PATTERNS.LAST
  else if localPart = firstInitial ++ lastInitial then EMAIL_PATTERNS.FIRST_INITIAL_LAST_INITIAL
  else if localPart = last ++ '.' :: first then EMAIL_PATTERNS.LAST_DOT_FIRST
  else if localPart = last ++ first then EMAIL_PATTERNS.LAST_FIRST
  else "custom".data

/-- Leading-match test: `leadsWith pat s` holds when `pat` occurs at the start of `s`. -/
def leadsWith : List Char → List Char → Bool
  | [], _ => true
  | _ :: _, [] => false
  | a :: as, b :: bs => a = b && leadsWith as bs

/-- Substring test, modelling JavaScript `String.prototype.includes`. -/
def containsSeq (pat : List Char) : List Char → Bool
  | [] => leadsWith pat []
  | b :: bs => leadsWith pat (b :: bs) || containsSeq pat bs

/-- Insertion step of the stable sort below. -/
def insertSorted {α : Type} (le : α → α → Bool) (a : α) : List α → List α
  | [] => [a]
  | b :: bs => if le a b then a :: b :: bs else b :: insertSorted le a bs

/-- Stable comparison sort: the denotation of `Array.prototype.sort(comparator)`
(stable per ECMAScript); `le a b` means the comparator returns `≤ 0` on `(a, b)`. -/
def stableSort {α : Type} (le : α → α → Bool) : List α → List α
  | [] => []
  | a :: as => insertSorted le a (stableSort le as)

/-- One DNS mail-exchange record, as consumed by `getMxRecords`. -/
structure MxRecord where
  exchange : List Char
  priority : Nat
deriving DecidableEq

/-- Outcome of one `SmtpClient.checkEmail()` run as observed by its callers:
the promise either resolves with the acceptance boolean or rejects with an
error whose message is `msg`. -/
inductive SmtpOutcome where
  | ok (accepted : Bool)
  | err (msg : List Char)
deriving DecidableEq

/-- The machine environment: DNS resolution (`dns.resolveMx`, which either throws
or yields records), the network outcome of one SMTP session against
`(host, port, useTls)`, and the `Math.random`-derived local part used by
`generateRandomString`. -/
structure NetEnv where
  resolveMx : List Char → Except (List Char) (List MxRecord)
  attempt : List Char → Nat → Bool → SmtpOutcome
  randLocal : List Char

/-- `getMxRecords` from the source: on a resolution error, log and return `[]`;
otherwise sort by ascending priority (stable) and keep the exchange names. -/
def getMxRecords (env : NetEnv) (domain : List Char) : List (List Char) :=
  match env.resolveMx domain with
  | .error _ => []
  | .ok records =>
    (stableSort (fun a b => decide (a.priority ≤ b.priority)) records).map (·.exchange)

/-- `email.split('@')[1]`: the part between the first and second `'@'`. -/
def emailDomain (email : List Char) : List Char :=
  ((email.dropWhile (· != '@')).drop 1).takeWhile (· != '@')

/-- The connection-class error test of the source:
`error.message.includes('timed out') || error.message.includes('ECONNREFUSED') || error.message.includes('ETIMEDOUT')`. -/
def isConnErr (msg : List Char) : Bool :=
  containsSeq ("timed out".data) msg || containsSeq ("ECONNREFUSED".data) msg ||
    containsSeq ("ETIMEDOUT".data) msg

/-- The options bag shared by `verifyEmail`, `checkCatchAll` and `guessEmail`. -/
structure VerifyOptions where
  timeout : Option Nat := none
  port : Option Nat := none
  retryCount : Option Nat := none
  simulationMode : Bool := false
  simulationResult : Option Bool := none
deriving DecidableEq

/-- JavaScript numeric `options.x || d`: both `undefined` and `0` fall back to `d`. -/
def natOr (o : Option Nat) (d : Nat) : Nat :=
  match o with
  | none => d
  | some n => if n = 0 then d else n

/-- Result record of `verifyEmail` (the source's `exists` field is `exists_` here). -/
structure VerifyResult where
  exists_ : Bool
  error : Option (List Char) := none
  isGoogleMail : Option Bool := none
deriving DecidableEq

/-- One SMTP session attempt made by the orchestrator: the `SmtpClient`
constructor arguments that vary across the retry ladder. -/
structure Attempt where
  host : List Char
  port : Nat
  useTls : Bool
deriving DecidableEq

def noMxMsg (domain : List Char) : List Char :=
  "No MX records found for ".data ++ domain

def unableMsg (domain : List Char) : List Char :=
  "Unable to connect to mail servers for ".data ++ domain ++
    ". This is common as many mail servers block SMTP probing.".data

def probeNote : List Char :=
  " (Note: Many mail servers block SMTP probing to prevent spam and abuse)".data

def isGoogleHost (mailServer : List Char) : Bool :=
  containsSeq ("google".data) mailServer || containsSeq ("gmail".data) mailServer

/-- One invocation body of the source's `verifyEmail`, also returning the list of
session attempts it makes.  `next` is the precomputed value of the recursive
fallback call `verifyEmail(email, fromEmail, {...options, retryCount: retryCount - 1})`;
it is passed as `some` exactly when `1 < rc` and consulted only in the branch where
the source recurses, so the control flow matches the source. -/
def verifyEmailAttempts (env : NetEnv) (email fromEmail : List Char) (options : VerifyOptions)
    (rc : Nat) (next : Option (VerifyResult × List Attempt)) : VerifyResult × List Attempt :=
  let domain := emailDomain email
  let mxRecords := getMxRecords env domain
  match mxRecords with
  | [] => ({ exists_ := false, error := some (noMxMsg domain) }, [])
  | mailServer :: restMx =>
    let isGoogleMail := isGoogleHost mailServer
    if options.simulationMode then
      ({ exists_ := options.simulationResult.getD false, isGoogleMail := some isGoogleMail }, [])
    else
      let p0 := natOr options.port 25
      match env.attempt mailServer p0 false with
      | .ok accepted =>
        ({ exists_ := accepted, isGoogleMail := some isGoogleMail }, [⟨mailServer, p0, false⟩])
      | .err msg =>
        if 0 < rc ∧ isConnErr msg then
          match env.attempt mailServer 587 false with
          | .ok accepted =>
            ({ exists_ := accepted, isGoogleMail := some isGoogleMail },
             [⟨mailServer, p0, false⟩, ⟨mailServer, 587, false⟩])
          | .err _ =>
            match env.attempt mailServer 465 false with
            | .ok accepted =>
              ({ exists_ := accepted, isGoogleMail := some isGoogleMail },
               [⟨mailServer, p0, false⟩, ⟨mailServer, 587, false⟩, ⟨mailServer, 465, false⟩])
            | .err _ =>
              match next with
              | some nxt =>
                if 1 < (mailServer :: restMx).length then
                  (nxt.1,
                   [⟨mailServer, p0, false⟩, ⟨mailServer, 587, false⟩, ⟨mailServer, 465, false⟩]
                     ++ nxt.2)
                else
                  ({ exists_ := false, isGoogleMail := some isGoogleMail,
                     error := some (unableMsg domain) },
                   [⟨mailServer, p0, false⟩, ⟨mailServer, 587, false⟩, ⟨mailServer, 465, false⟩])
              | none =>
                ({ exists_ := false, isGoogleMail := some isGoogleMail,
                   error := some (unableMsg domain) },
                 [⟨mailServer, p0, false⟩, ⟨mailServer, 587, false⟩, ⟨mailServer, 465, false⟩])
        else
          ({ exists_ := false, isGoogleMail := some isGoogleMail,
             error := some (msg ++ probeNote) },
           [⟨mailServer, p0, false⟩])

/-- The source's recursive `verifyEmail` on its (positive) retry counter. -/
def verifyEmailRec (env : NetEnv) (email fromEmail : List Char) (options : VerifyOptions) :
    Nat → VerifyResult × List Attempt
  | 0 => verifyEmailAttempts env email fromEmail options 0 none
  | n + 1 =>
    verifyEmailAttempts env email fromEmail options (n + 1)
      (if 1 ≤ n then some (verifyEmailRec env email fromEmail options n) else none)

/-- `verifyEmail` from the source (`const retryCount = options.retryCount || 2`). -/
def verifyEmail (env : NetEnv) (email : List Char)
    (fromEmail : List Char := "test@example.com".data) (options : VerifyOptions := {}) :
    VerifyResult × List Attempt :=
  verifyEmailRec env email fromEmail options (natOr options.retryCount 2)

/-- Result record of `checkCatchAll`. -/
structure CatchAllResult where
  hasCatchAll : Bool
  mxRecords : List (List Char)
  randomEmail : Option (List Char) := none
  error : Option (List Char) := none
  simulationMode : Option Bool := none
  isGoogleMail : Option Bool := none
deriving DecidableEq

def catchAllUnableMsg (domain : List Char) : List Char :=
  "Unable to connect to mail servers for ".data ++ domain ++
    ". This is common as many mail servers block SMTP probing. Consider using simulation mode for testing.".data

/-- One invocation body of the source's `checkCatchAll` after its simulation
branch; `next` plays the same role as in `verifyEmailAttempts`.  Note the 465
attempt here sets `useTls: true`, unlike `verifyEmail`. -/
def checkCatchAllAttempts (env : NetEnv) (domain fromEmail : List Char)
    (options : VerifyOptions) (rc : Nat) (next : Option CatchAllResult) : CatchAllResult :=
  let mxRecords := getMxRecords env domain
  match mxRecords with
  | [] => { hasCatchAll := false, mxRecords := [], error := some (noMxMsg domain) }
  | mailServer :: restMx =>
    let isGoogleMail := isGoogleHost mailServer
    let randomEmail := env.randLocal ++ '@' :: domain
    let p0 := natOr options.port 25
    match env.attempt mailServer p0 false with
    | .ok accepted =>
      { hasCatchAll := accepted, mxRecords := mailServer :: restMx,
        randomEmail := some randomEmail, isGoogleMail := some isGoogleMail }
    | .err msg =>
      if 0 < rc ∧ isConnErr msg then
        match env.attempt mailServer 587 false with
        | .ok accepted =>
          { hasCatchAll := accepted, mxRecords := mailServer :: restMx,
            randomEmail := some randomEmail, isGoogleMail := some isGoogleMail }
        | .err _ =>
          match env.attempt mailServer 465 true with
          | .ok accepted =>
            { hasCatchAll := accepted, mxRecords := mailServer :: restMx,
              randomEmail := some randomEmail, isGoogleMail := some isGoogleMail }
          | .err _ =>
            match next with
            | some nxt =>
              if 1 < (mailServer :: restMx).length then nxt
              else
                { hasCatchAll := false, mxRecords := mailServer :: restMx,
                  randomEmail := some randomEmail,
                  error := some (catchAllUnableMsg domain), isGoogleMail := some isGoogleMail }
            | none =>
              { hasCatchAll := false, mxRecords := mailServer :: restMx,
                randomEmail := some randomEmail,
                error := some (catchAllUnableMsg domain), isGoogleMail := some isGoogleMail }
      else
        { hasCatchAll := false, mxRecords := mailServer :: restMx,
          randomEmail := some randomEmail,
          error := some (msg ++ probeNote), isGoogleMail := some isGoogleMail }

/-- The source's recursive `checkCatchAll` on its retry counter. -/
def checkCatchAllRec (env : NetEnv) (domain fromEmail : List Char) (options : VerifyOptions) :
    Nat → CatchAllResult
  | 0 => checkCatchAllAttempts env domain fromEmail options 0 none
  | n + 1 =>
    checkCatchAllAttempts env domain fromEmail options (n + 1)
      (if 1 ≤ n then some (checkCatchAllRec env domain fromEmail options n) else none)

/-- `checkCatchAll` from the source, simulation branch first. -/
def checkCatchAll (env : NetEnv) (domain : List Char)
    (fromEmail : List Char := "test@example.com".data) (options : VerifyOptions := {}) :
    CatchAllResult :=
  if options.simulationMode then
    { hasCatchAll := options.simulationResult.getD false,
      mxRecords := ["simulated-mx.".data ++ domain],
      randomEmail := some (env.randLocal ++ '@' :: domain),
      simulationMode := some true }
  else
    checkCatchAllRec env domain fromEmail options (natOr options.retryCount 2)

/-- One entry of `guessEmail`'s result list. -/
structure GuessEntry where
  email : List Char
  exists_ : Bool
  format : List Char
deriving DecidableEq

/-- Result record of `guessEmail`. -/
structure GuessOutput where
  guessedEmails : List GuessEntry
  hasCatchAll : Bool
  error : Option (List Char) := none
  isGoogleMail : Option Bool := none
deriving DecidableEq

/-- The source's batching loop `for (let i = 0; i < possibleEmails.length; i += 3)`:
the slices `possibleEmails.slice(i, i + 3)`. -/
def batches3 {α : Type} : List α → List (List α)
  | [] => []
  | [a] => [[a]]
  | [a, b] => [[a, b]]
  | a :: b :: c :: rest => [a, b, c] :: batches3 rest

/-- The comparator `(a, b) => (b.exists ? 1 : 0) - (a.exists ? 1 : 0)` of the ranking sort. -/
def cmpExists (a b : GuessEntry) : Int :=
  (if b.exists_ then 1 else 0) - (if a.exists_ then 1 else 0)

/-- The `results` array built by `guessEmail`'s verification loop, in push order:
batch by batch, each batch's results paired with its addresses by index. -/
def guessEmailResults (env : NetEnv) (firstName lastName domain fromEmail : List Char)
    (options : VerifyOptions) : List GuessEntry :=
  let possibleEmails := generatePossibleEmails firstName lastName domain
  (batches3 possibleEmails).flatMap fun batch =>
    batch.map fun email =>
      { email := email, exists_ := (verifyEmail env email fromEmail options).1.exists_,
        format := getEmailFormat firstName lastName email }

/-- Index-aware map, for the source's `possibleEmails.map((email, index) => ...)`. -/
def mapIdxFrom {α β : Type} (f : Nat → α → β) : Nat → List α → List β
  | _, [] => []
  | i, a :: as => f i a :: mapIdxFrom f (i + 1) as

/-- `guessEmail` from the source. -/
def guessEmail (env : NetEnv) (firstName lastName domain : List Char)
    (fromEmail : List Char := "test@example.com".data) (options : VerifyOptions := {}) :
    GuessOutput :=
  let catchAllResult := checkCatchAll env domain fromEmail options
  let mxRecords := catchAllResult.mxRecords
  let isGoogleMail :=
    decide (0 < mxRecords.length) && isGoogleHost (mxRecords.headD [])
  if catchAllResult.error.isSome then
    { guessedEmails := [], hasCatchAll := false, error := catchAllResult.error,
      isGoogleMail := some isGoogleMail }
  else if catchAllResult.hasCatchAll then
    { guessedEmails := (generatePossibleEmails firstName lastName domain).map fun email =>
        { email := email, exists_ := true, format := "unknown (catch-all domain)".data },
      hasCatchAll := true, isGoogleMail := some isGoogleMail }
  else if options.simulationMode then
    { guessedEmails := mapIdxFrom (fun index email =>
        { email := email,
          exists_ := if index = 0 then true else options.simulationResult.getD false,
          format := getEmailFormat firstName lastName email })
        0 (generatePossibleEmails firstName lastName domain),
      hasCatchAll := false, isGoogleMail := some isGoogleMail }
  else
    { guessedEmails := stableSort (fun a b => decide (cmpExists a b ≤ 0))
        (guessEmailResults env firstName lastName domain fromEmail options),
      hasCatchAll := false, isGoogleMail := some isGoogleMail }

/-- One socket event delivered to `SmtpClient`'s listeners, in arrival order. -/
inductive SockEvent where
  | data (response : List Char)
  | sockError (msg : List Char)
  | timeout
  | close
deriving DecidableEq

/-- Settlement of the `checkEmail` promise. -/
inductive Settled where
  | resolved (accepted : Bool)
  | rejectedSocket (msg : List Char)
  | rejectedTimeout
deriving DecidableEq

/-- The mutable state of one `SmtpClient` session: the receive buffer, the
`commandSequence` counter, the `emailAccepted` flag, the commands written to the
socket, and the promise settlement (if any). -/
structure ClientState where
  buffer : List Char
  commandSequence : Nat
  emailAccepted : Bool
  sent : List (List Char)
  settled : Option Settled
deriving DecidableEq

def initialClientState : ClientState :=
  { buffer := [], commandSequence := 0, emailAccepted := false, sent := [], settled := none }

/-- Settling the Node promise: the first resolve/reject wins, later ones are no-ops. -/
def settle (s : ClientState) (v : Settled) : ClientState :=
  match s.settled with
  | some _ => s
  | none => { s with settled := some v }

/-- The `data` listener of `SmtpClient.setupSocketListeners`, branch for branch.
`response.includes('250')` and friends are substring tests on the arriving chunk. -/
def onData (fromEmail toEmail : List Char) (s : ClientState) (response : List Char) :
    ClientState :=
  let s := { s with buffer := s.buffer ++ response }
  if s.commandSequence = 0 ∧ containsSeq ("220".data) response then
    { s with sent := s.sent ++ ["EHLO checkeremail.com".data], commandSequence := 1 }
  else if s.commandSequence = 1 ∧ containsSeq ("250".data) response then
    { s with sent := s.sent ++ ["MAIL FROM:<".data ++ fromEmail ++ ">".data], commandSequence := 2 }
  else if s.commandSequence = 2 ∧ containsSeq ("250".data) response then
    { s with sent := s.sent ++ ["RCPT TO:<".data ++ toEmail ++ ">".data], commandSequence := 3 }
  else if s.commandSequence = 3 then
    let s := if containsSeq ("250".data) response then { s with emailAccepted := true } else s
    { s with sent := s.sent ++ ["QUIT".data], commandSequence := 4 }
  else if s.commandSequence = 4 ∧ containsSeq ("221".data) response then
    settle s (.resolved s.emailAccepted)
  else s

/-- All four socket listeners of `SmtpClient.setupSocketListeners`. -/
def stepEvent (fromEmail toEmail : List Char) (s : ClientState) : SockEvent → ClientState
  | .data response => onData fromEmail toEmail s response
  | .sockError msg => settle s (.rejectedSocket msg)
  | .timeout => settle s .rejectedTimeout
  | .close => settle s (.resolved s.emailAccepted)

/-- One non-simulated `checkEmail` session: the listeners consume the socket's
event sequence in order, starting from the fresh state. -/
def runClient (fromEmail toEmail : List Char) (events : List SockEvent) : ClientState :=
  events.foldl (stepEvent fromEmail toEmail) initialClientState

/-- Separation hypotheses on a normalized name pair under which the eleven
generated local parts are pairwise distinct (each is forced by a concrete
degenerate input on which generation repeats itself). -/
structure NameSep (f l : List Char) : Prop where
  hdf : '.' ∉ f
  hdl : '.' ∉ l
  hf2 : 2 ≤ f.length
  hl2 : 2 ≤ l.length
  hne : f ≠ l
  hcomm : f ++ l ≠ l ++ f
  hfi : f ≠ f.take 1 ++ l
  hli : l ≠ f ++ l.take 1
  hx : f.take 1 ++ l ≠ f ++ l.take 1
  hfii : f ≠ f.take 1 ++ l.take 1
  hlii : l ≠ f.take 1 ++ l.take 1

/-- Pairwise distinctness of the eleven generated local parts (in generation order:
`f.l`, `fl`, `f`, `l`, `Fl`, `fL`, `F.l`, `f.L`, `l.f`, `lf`, `FL`, where `F`/`L`
are the initials). -/
structure LocalsDistinct (f l : List Char) : Prop where
  d01 : f ++ '.' :: l ≠ f ++ l
  d02 : f ++ '.' :: l ≠ f
  d03 : f ++ '.' :: l ≠ l
  d04 : f ++ '.' :: l ≠ f.take 1 ++ l
  d05 : f ++ '.' :: l ≠ f ++ l.take 1
  d06 : f ++ '.' :: l ≠ f.take 1 ++ '.' :: l
  d07 : f ++ '.' :: l ≠ f ++ '.' :: l.take 1
  d08 : f ++ '.' :: l ≠ l ++ '.' :: f
  d09 : f ++ '.' :: l ≠ l ++ f
  d010 : f ++ '.' :: l ≠ f.take 1 ++ l.take 1
  d12 : f ++ l ≠ f
  d13 : f ++ l ≠ l
  d14 : f ++ l ≠ f.take 1 ++ l
  d15 : f ++ l ≠ f ++ l.take 1
  d16 : f ++ l ≠ f.take 1 ++ '.' :: l
  d17 : f ++ l ≠ f ++ '.' :: l.take 1
  d18 : f ++ l ≠ l ++ '.' :: f
  d19 : f ++ l ≠ l ++ f
  d110 : f ++ l ≠ f.take 1 ++ l.take 1
  d23 : f ≠ l
  d24 : f ≠ f.take 1 ++ l
  d25 : f ≠ f ++ l.take 1
  d26 : f ≠ f.take 1 ++ '.' :: l
  d27 : f ≠ f ++ '.' :: l.take 1
  d28 : f ≠ l ++ '.' :: f
  d29 : f ≠ l ++ f
  d210 : f ≠ f.take 1 ++ l.take 1
  d34 : l ≠ f.take 1 ++ l
  d35 : l ≠ f ++ l.take 1
  d36 : l ≠ f.take 1 ++ '.' :: l
  d37 : l ≠ f ++ '.' :: l.take 1
  d38 : l ≠ l ++ '.' :: f
  d39 : l ≠ l ++ f
  d310 : l ≠ f.take 1 ++ l.take 1
  d45 : f.take 1 ++ l ≠ f ++ l.take 1
  d46 : f.take 1 ++ l ≠ f.take 1 ++ '.' :: l
  d47 : f.take 1 ++ l ≠ f ++ '.' :: l.take 1
  d48 : f.take 1 ++ l ≠ l ++ '.' :: f
  d49 : f.take 1 ++ l ≠ l ++ f
  d410 : f.take 1 ++ l ≠ f.take 1 ++ l.take 1
  d56 : f ++ l.take 1 ≠ f.take 1 ++ '.' :: l
  d57 : f ++ l.take 1 ≠ f ++ '.' :: l.take 1
  d58 : f ++ l.take 1 ≠ l ++ '.' :: f
  d59 : f ++ l.take 1 ≠ l ++ f
  d510 : f ++ l.take 1 ≠ f.take 1 ++ l.take 1
  d67 : f.take 1 ++ '.' :: l ≠ f ++ '.' :: l.take 1
  d68 : f.take 1 ++ '.' :: l ≠ l ++ '.' :: f
  d69 : f.take 1 ++ '.' :: l ≠ l ++ f
  d610 : f.take 1 ++ '.' :: l ≠ f.take 1 ++ l.take 1
  d78 : f ++ '.' :: l.take 1 ≠ l ++ '.' :: f
  d79 : f ++ '.' :: l.take 1 ≠ l ++ f
  d710 : f ++ '.' :: l.take 1 ≠ f.take 1 ++ l.take 1
  d89 : l ++ '.' :: f ≠ l ++ f
  d810 : l ++ '.' :: f ≠ f.take 1 ++ l.take 1
  d910 : l ++ f ≠ f.take 1 ++ l.take 1

/-- The address shape asserted by the spec for generated candidates:
`local@domain` with a non-empty local part over `[a-z0-9.]`. -/
def matchesLocalShape (domain e : List Char) : Prop :=
  ∃ loc, e = loc ++ '@' :: domain ∧ loc ≠ [] ∧ ∀ c ∈ loc, isLowerAlnum c = true ∨ c = '.'

def envAllFail : NetEnv :=
  { resolveMx := fun _ => .ok [⟨"mx1.example.com".data, 10⟩, ⟨"mx2.example.com".data, 20⟩,
      ⟨"mx3.example.com".data, 30⟩],
    attempt := fun _ _ _ => .err ("connect ETIMEDOUT 93.184.216.34:25".data),
    randLocal := "abcdefghijklmnopqrst".data }

def envTwoFail : NetEnv :=
  { resolveMx := fun _ => .ok [⟨"mx.example.org".data, 5⟩],
    attempt := fun _ port _ =>
      if port = 465 then .ok true else .err ("connect ECONNREFUSED 93.184.216.34".data),
    randLocal := "abcdefghijklmnopqrst".data }

def envPlain : NetEnv :=
  { resolveMx := fun _ => .ok [⟨"mx.plain.test".data, 10⟩],
    attempt := fun _ _ _ => .ok false,
    randLocal := "abcdefghijklmnopqrst".data }

def envEmptyMx : NetEnv :=
  { resolveMx := fun _ => .ok [],
    attempt := fun _ _ _ => .ok false,
    randLocal := "abcdefghijklmnopqrst".data }

example : generatePossibleEmails ("John".data) ("Doe".data) ("example.com".data) =
    ["john.doe@example.com".data, "johndoe@example.com".data, "john@example.com".data,
     "doe@example.com".data, "jdoe@example.com".data, "johnd@example.com".data,
     "j.doe@example.com".data, "john.d@example.com".data, "doe.john@example.com".data,
     "doejohn@example.com".data, "jd@example.com".data] := by decide

example : getEmailFormat ("John".data) ("Doe".data) ("johnd@example.com".data) = "custom".data := by
  decide

example : getEmailFormat ("John".data) ("Doe".data) ("jdoe@example.com".data) =
    EMAIL_PATTERNS.FIRST_INITIAL_LAST := by decide

theorem memNe {α : Type} {x : α} {a b : List α} (h1 : x ∈ a) (h2 : x ∉ b) : a ≠ b :=
  fun he => h2 (he ▸ h1)

theorem lenNe {α : Type} {a b : List α} (h : a.length ≠ b.length) : a ≠ b :=
  fun he => h (he ▸ rfl)

theorem notMemAppend {α : Type} {x : α} {a b : List α} (ha : x ∉ a) (hb : x ∉ b) :
    x ∉ a ++ b := by
  intro h
  rcases List.mem_append.mp h with h | h
  exacts [ha h, hb h]

theorem lengthTakeOne {α : Type} {a : List α} (h : 1 ≤ a.length) : (a.take 1).length = 1 := by
  simp only [List.length_take]
  omega

/-- A list with a distinguished separator occurrence splits uniquely around the
first separator. -/
theorem sepInj {α : Type} {sep : α} {a : List α} :
    ∀ {b c d : List α}, sep ∉ a → sep ∉ b → a ++ sep :: c = b ++ sep :: d →
      a = b ∧ c = d := by
  induction a with
  | nil =>
    intro b c d _ hb h
    cases b with
    | nil => simpa using h
    | cons y ys =>
      simp only [List.nil_append, List.cons_append, List.cons.injEq] at h
      exact absurd (List.mem_cons.mpr (.inl h.1)) hb
  | cons x xs ih =>
    intro b c d ha hb h
    cases b with
    | nil =>
      simp only [List.cons_append, List.nil_append, List.cons.injEq] at h
      exact absurd (List.mem_cons.mpr (.inl h.1.symm)) ha
    | cons y ys =>
      have ha' : sep ∉ xs := fun hm => ha (List.mem_cons_of_mem _ hm)
      have hb' : sep ∉ ys := fun hm => hb (List.mem_cons_of_mem _ hm)
      simp only [List.cons_append, List.cons.injEq] at h
      obtain ⟨rfl, h2⟩ := h
      obtain ⟨rfl, rfl⟩ := ih ha' hb' h2
      exact ⟨rfl, rfl⟩

theorem mem_normalizeName {c : Char} {s : List Char} (h : c ∈ normalizeName s) :
    isLowerAlnum c = true :=
  (List.mem_filter.mp h).2

theorem dot_not_mem_normalizeName (s : List Char) : '.' ∉ normalizeName s :=
  fun h => absurd (mem_normalizeName h) (by decide)

theorem charset_ne_at {c : Char} (h : isLowerAlnum c = true ∨ c = '.') : c ≠ '@' := by
  rintro rfl
  rcases h with h | h
  · exact absurd h (by decide)
  · exact absurd h (by decide)

theorem NameSep.distinct {f l : List Char} (h : NameSep f l) : LocalsDistinct f l := by
  obtain ⟨hdf, hdl, hf2, hl2, hne, hcomm, hfi, hli, hx, hfii, hlii⟩ := h
  have hF1 : (f.take 1).length = 1 := lengthTakeOne (by omega)
  have hL1 : (l.take 1).length = 1 := lengthTakeOne (by omega)
  have hdF : '.' ∉ f.take 1 := fun hm => hdf (List.take_subset _ _ hm)
  have hdL : '.' ∉ l.take 1 := fun hm => hdl (List.take_subset _ _ hm)
  have m0 : '.' ∈ f ++ '.' :: l := List.mem_append_right _ (List.mem_cons_self _ _)
  have m6 : '.' ∈ f.take 1 ++ '.' :: l := List.mem_append_right _ (List.mem_cons_self _ _)
  have m7 : '.' ∈ f ++ '.' :: l.take 1 := List.mem_append_right _ (List.mem_cons_self _ _)
  have m8 : '.' ∈ l ++ '.' :: f := List.mem_append_right _ (List.mem_cons_self _ _)
  have n1 : '.' ∉ f ++ l := notMemAppend hdf hdl
  have n4 : '.' ∉ f.take 1 ++ l := notMemAppend hdF hdl
  have n5 : '.' ∉ f ++ l.take 1 := notMemAppend hdf hdL
  have n9 : '.' ∉ l ++ f := notMemAppend hdl hdf
  have n10 : '.' ∉ f.take 1 ++ l.take 1 := notMemAppend hdF hdL
  refine ⟨?_, ?_, ?_, ?_, ?_, ?_, ?_, ?_, ?_, ?_, ?_, ?_, ?_, ?_, ?_, ?_, ?_, ?_, ?_, ?_,
    ?_, ?_, ?_, ?_, ?_, ?_, ?_, ?_, ?_, ?_, ?_, ?_, ?_, ?_, ?_, ?_, ?_, ?_, ?_, ?_,
    ?_, ?_, ?_, ?_, ?_, ?_, ?_, ?_, ?_, ?_, ?_, ?_, ?_, ?_, ?_⟩
  · exact memNe m0 n1
  · exact memNe m0 hdf
  · exact memNe m0 hdl
  · exact memNe m0 n4
  · exact memNe m0 n5
  · intro he
    obtain ⟨h1, -⟩ := sepInj hdf hdF he
    have := congrArg List.length h1
    rw [hF1] at this
    omega
  · intro he
    obtain ⟨-, h2⟩ := sepInj hdf hdf he
    have := congrArg List.length h2
    rw [hL1] at this
    omega
  · intro he
    exact hne (sepInj hdf hdl he).1
  · exact memNe m0 n9
  · exact memNe m0 n10
  · exact lenNe (by simp only [List.length_append]; omega)
  · exact lenNe (by simp only [List.length_append]; omega)
  · exact lenNe (by simp only [List.length_append, hF1]; omega)
  · exact lenNe (by simp only [List.length_append, hL1]; omega)
  · exact (memNe m6 n1).symm
  · exact (memNe m7 n1).symm
  · exact (memNe m8 n1).symm
  · exact hcomm
  · exact lenNe (by simp only [List.length_append, hF1, hL1]; omega)
  · exact hne
  · exact hfi
  · exact lenNe (by simp only [List.length_append, hL1]; omega)
  · exact (memNe m6 hdf).symm
  · exact (memNe m7 hdf).symm
  · exact (memNe m8 hdf).symm
  · exact lenNe (by simp only [List.length_append]; omega)
  · exact hfii
  · exact lenNe (by simp only [List.length_append, hF1]; omega)
  · exact hli
  · exact (memNe m6 hdl).symm
  · exact (memNe m7 hdl).symm
  · exact (memNe m8 hdl).symm
  · exact lenNe (by simp only [List.length_append]; omega)
  · exact hlii
  · exact hx
  · exact (memNe m6 n4).symm
  · exact (memNe m7 n4).symm
  · exact (memNe m8 n4).symm
  · exact lenNe (by simp only [List.length_append, hF1]; omega)
  · exact lenNe (by simp only [List.length_append, hF1, hL1]; omega)
  · exact (memNe m6 n5).symm
  · exact (memNe m7 n5).symm
  · exact (memNe m8 n5).symm
  · exact lenNe (by simp only [List.length_append, hL1]; omega)
  · exact lenNe (by simp only [List.length_append, hF1, hL1]; omega)
  · intro he
    obtain ⟨h1, -⟩ := sepInj hdF hdf he
    have := congrArg List.length h1
    rw [hF1] at this
    omega
  · intro he
    obtain ⟨h1, -⟩ := sepInj hdF hdl he
    have := congrArg List.length h1
    rw [hF1] at this
    omega
  · exact memNe m6 n9
  · exact memNe m6 n10
  · intro he
    exact hne (sepInj hdf hdl he).1
  · exact memNe m7 n9
  · exact memNe m7 n10
  · exact memNe m8 n9
  · exact memNe m8 n10
  · exact lenNe (by simp only [List.length_append, hF1, hL1]; omega)

theorem gen_nodup (fn ln d : List Char) (ns : NameSep (normalizeName fn) (normalizeName ln)) :
    (generatePossibleEmails fn ln d).Nodup := by
  obtain ⟨d01, d02, d03, d04, d05, d06, d07, d08, d09, d010, d12, d13, d14, d15, d16, d17,
    d18, d19, d110, d23, d24, d25, d26, d27, d28, d29, d210, d34, d35, d36, d37, d38, d39,
    d310, d45, d46, d47, d48, d49, d410, d56, d57, d58, d59, d510, d67, d68, d69, d610,
    d78, d79, d710, d89, d810, d910⟩ := ns.distinct
  have hmap : generatePossibleEmails fn ln d =
      [normalizeName fn ++ '.' :: normalizeName ln,
       normalizeName fn ++ normalizeName ln,
       normalizeName fn,
       normalizeName ln,
       (normalizeName fn).take 1 ++ normalizeName ln,
       normalizeName fn ++ (normalizeName ln).take 1,
       (normalizeName fn).take 1 ++ '.' :: normalizeName ln,
       normalizeName fn ++ '.' :: (normalizeName ln).take 1,
       normalizeName ln ++ '.' :: normalizeName fn,
       normalizeName ln ++ normalizeName fn,
       (normalizeName fn).take 1 ++ (normalizeName ln).take 1].map (· ++ '@' :: d) := by
    simp [generatePossibleEmails]
  rw [hmap]
  refine List.Nodup.map (fun a b h => List.append_cancel_right h) ?_
  simp only [List.nodup_cons, List.mem_cons, List.not_mem_nil, or_false, not_or,
    List.nodup_nil, not_false_eq_true, and_true]
  exact ⟨⟨d01, d02, d03, d04, d05, d06, d07, d08, d09, d010⟩,
    ⟨d12, d13, d14, d15, d16, d17, d18, d19, d110⟩,
    ⟨d23, d24, d25, d26, d27, d28, d29, d210⟩,
    ⟨d34, d35, d36, d37, d38, d39, d310⟩,
    ⟨d45, d46, d47, d48, d49, d410⟩,
    ⟨d56, d57, d58, d59, d510⟩,
    ⟨d67, d68, d69, d610⟩,
    ⟨d78, d79, d710⟩,
    ⟨d89, d810⟩,
    d910⟩

theorem gen_shapes (fn ln d : List Char)
    (hfne : normalizeName fn ≠ []) (hlne : normalizeName ln ≠ []) :
    ∀ e ∈ generatePossibleEmails fn ln d, matchesLocalShape d e := by
  have hfQ : ∀ c ∈ normalizeName fn, isLowerAlnum c = true ∨ c = '.' :=
    fun c hc => .inl (mem_normalizeName hc)
  have hlQ : ∀ c ∈ normalizeName ln, isLowerAlnum c = true ∨ c = '.' :=
    fun c hc => .inl (mem_normalizeName hc)
  have hFQ : ∀ c ∈ (normalizeName fn).take 1, isLowerAlnum c = true ∨ c = '.' :=
    fun c hc => hfQ c (List.take_subset _ _ hc)
  have hLQ : ∀ c ∈ (normalizeName ln).take 1, isLowerAlnum c = true ∨ c = '.' :=
    fun c hc => hlQ c (List.take_subset _ _ hc)
  have happ : ∀ {x y : List Char}, (∀ c ∈ x, isLowerAlnum c = true ∨ c = '.') →
      (∀ c ∈ y, isLowerAlnum c = true ∨ c = '.') →
      ∀ c ∈ x ++ y, isLowerAlnum c = true ∨ c = '.' :=
    fun hx hy c hc => (List.mem_append.mp hc).elim (hx c) (hy c)
  have hdot : ∀ {y : List Char}, (∀ c ∈ y, isLowerAlnum c = true ∨ c = '.') →
      ∀ c ∈ '.' :: y, isLowerAlnum c = true ∨ c = '.' :=
    fun hy c hc => (List.mem_cons.mp hc).elim (fun h => .inr h) (hy c)
  have hF1 : ((normalizeName fn).take 1).length = 1 :=
    lengthTakeOne (by have := List.length_pos.mpr hfne; omega)
  have hL1 : ((normalizeName ln).take 1).length = 1 :=
    lengthTakeOne (by have := List.length_pos.mpr hlne; omega)
  have hFne : (normalizeName fn).take 1 ≠ [] := by
    intro h0; rw [h0] at hF1; simp at hF1
  have hLne : (normalizeName ln).take 1 ≠ [] := by
    intro h0; rw [h0] at hL1; simp at hL1
  have hne_app_l : ∀ {x y : List Char}, x ≠ [] → x ++ y ≠ [] := by
    intro x y hx h
    rcases List.append_eq_nil.mp h with ⟨h1, -⟩
    exact hx h1
  have hne_dot : ∀ {x y : List Char}, x ++ '.' :: y ≠ [] := by
    intro x y h
    rcases List.append_eq_nil.mp h with ⟨-, h2⟩
    exact List.cons_ne_nil _ _ h2
  intro e he
  simp only [generatePossibleEmails, List.mem_cons, List.not_mem_nil, or_false] at he
  rcases he with rfl | rfl | rfl | rfl | rfl | rfl | rfl | rfl | rfl | rfl | rfl
  · exact ⟨_, rfl, hne_dot, happ hfQ (hdot hlQ)⟩
  · exact ⟨_, rfl, hne_app_l hfne, happ hfQ hlQ⟩
  · exact ⟨_, rfl, hfne, hfQ⟩
  · exact ⟨_, rfl, hlne, hlQ⟩
  · exact ⟨_, rfl, hne_app_l hFne, happ hFQ hlQ⟩
  · exact ⟨_, rfl, hne_app_l hfne, happ hfQ hLQ⟩
  · exact ⟨_, rfl, hne_dot, happ hFQ (hdot hlQ)⟩
  · exact ⟨_, rfl, hne_dot, happ hfQ (hdot hLQ)⟩
  · exact ⟨_, rfl, hne_dot, happ hlQ (hdot hfQ)⟩
  · exact ⟨_, rfl, hne_app_l hlne, happ hlQ hfQ⟩
  · exact ⟨_, rfl, hne_app_l hFne, happ hFQ hLQ⟩

theorem takeWhile_append_at {a d : List Char} (ha : ∀ c ∈ a, c ≠ '@') :
    (a ++ '@' :: d).takeWhile (· != '@') = a := by
  induction a with
  | nil => simp
  | cons x xs ih =>
    have hx : (x != '@') = true := by
      simpa using ha x (List.mem_cons_self _ _)
    simp only [List.cons_append, List.takeWhile_cons, hx, if_true]
    rw [ih (fun c hc => ha c (List.mem_cons_of_mem _ hc))]

theorem getEmailFormat_gen (fn ln d : List Char)
    (ns : NameSep (normalizeName fn) (normalizeName ln)) :
    (generatePossibleEmails fn ln d).map (getEmailFormat fn ln) =
      [EMAIL_PATTERNS.FIRST_DOT_LAST, EMAIL_PATTERNS.FIRST_LAST, EMAIL_PATTERNS.FIRST,
       EMAIL_PATTERNS.LAST, EMAIL_PATTERNS.FIRST_INITIAL_LAST, "custom".data,
       EMAIL_PATTERNS.FIRST_INITIAL_DOT_LAST, EMAIL_PATTERNS.FIRST_DOT_LAST_INITIAL,
       EMAIL_PATTERNS.LAST_DOT_FIRST, EMAIL_PATTERNS.LAST_FIRST,
       EMAIL_PATTERNS.FIRST_INITIAL_LAST_INITIAL] := by
  obtain ⟨d01, d02, d03, d04, d05, d06, d07, d08, d09, d010, d12, d13, d14, d15, d16, d17,
    d18, d19, d110, d23, d24, d25, d26, d27, d28, d29, d210, d34, d35, d36, d37, d38, d39,
    d310, d45, d46, d47, d48, d49, d410, d56, d57, d58, d59, d510, d67, d68, d69, d610,
    d78, d79, d710, d89, d810, d910⟩ := ns.distinct
  have hfA : ∀ c ∈ normalizeName fn, c ≠ '@' :=
    fun c hc => charset_ne_at (.inl (mem_normalizeName hc))
  have hlA : ∀ c ∈ normalizeName ln, c ≠ '@' :=
    fun c hc => charset_ne_at (.inl (mem_normalizeName hc))
  have hFA : ∀ c ∈ (normalizeName fn).take 1, c ≠ '@' :=
    fun c hc => hfA c (List.take_subset _ _ hc)
  have hLA : ∀ c ∈ (normalizeName ln).take 1, c ≠ '@' :=
    fun c hc => hlA c (List.take_subset _ _ hc)
  have happA : ∀ {x y : List Char}, (∀ c ∈ x, c ≠ '@') → (∀ c ∈ y, c ≠ '@') →
      ∀ c ∈ x ++ y, c ≠ '@' :=
    fun hx hy c hc => (List.mem_append.mp hc).elim (hx c) (hy c)
  have hdotA : ∀ {y : List Char}, (∀ c ∈ y, c ≠ '@') → ∀ c ∈ '.' :: y, c ≠ '@' :=
    fun hy c hc => (List.mem_cons.mp hc).elim (fun h => h ▸ (by decide)) (hy c)
  have lp0 := takeWhile_append_at (a := normalizeName fn ++ '.' :: normalizeName ln)
    (d := d) (happA hfA (hdotA hlA))
  have lp1 := takeWhile_append_at (a := normalizeName fn ++ normalizeName ln)
    (d := d) (happA hfA hlA)
  have lp2 := takeWhile_append_at (a := normalizeName fn) (d := d) hfA
  have lp3 := takeWhile_append_at (a := normalizeName ln) (d := d) hlA
  have lp4 := takeWhile_append_at (a := (normalizeName fn).take 1 ++ normalizeName ln)
    (d := d) (happA hFA hlA)
  have lp5 := takeWhile_append_at (a := normalizeName fn ++ (normalizeName ln).take 1)
    (d := d) (happA hfA hLA)
  have lp6 := takeWhile_append_at (a := (normalizeName fn).take 1 ++ '.' :: normalizeName ln)
    (d := d) (happA hFA (hdotA hlA))
  have lp7 := takeWhile_append_at (a := normalizeName fn ++ '.' :: (normalizeName ln).take 1)
    (d := d) (happA hfA (hdotA hLA))
  have lp8 := takeWhile_append_at (a := normalizeName ln ++ '.' :: normalizeName fn)
    (d := d) (happA hlA (hdotA hfA))
  have lp9 := takeWhile_append_at (a := normalizeName ln ++ normalizeName fn)
    (d := d) (happA hlA hfA)
  have lp10 := takeWhile_append_at (a := (normalizeName fn).take 1 ++ (normalizeName ln).take 1)
    (d := d) (happA hFA hLA)
  have e0 : getEmailFormat fn ln ((normalizeName fn ++ '.' :: normalizeName ln) ++ '@' :: d) =
      EMAIL_PATTERNS.FIRST_DOT_LAST := by
    simp only [getEmailFormat]
    rw [lp0, if_pos rfl]
  have e1 : getEmailFormat fn ln ((normalizeName fn ++ normalizeName ln) ++ '@' :: d) =
      EMAIL_PATTERNS.FIRST_LAST := by
    simp only [getEmailFormat]
    rw [lp1, if_neg (Ne.symm d01), if_pos rfl]
  have e2 : getEmailFormat fn ln (normalizeName fn ++ '@' :: d) = EMAIL_PATTERNS.FIRST := by
    simp only [getEmailFormat]
    rw [lp2, if_neg (Ne.symm d02), if_neg (Ne.symm d12), if_neg d24, if_neg d27, if_neg d26,
      if_pos rfl]
  have e3 : getEmailFormat fn ln (normalizeName ln ++ '@' :: d) = EMAIL_PATTERNS.LAST := by
    simp only [getEmailFormat]
    rw [lp3, if_neg (Ne.symm d03), if_neg (Ne.symm d13), if_neg d34, if_neg d37, if_neg d36,
      if_neg (Ne.symm d23), if_pos rfl]
  have e4 : getEmailFormat fn ln (((normalizeName fn).take 1 ++ normalizeName ln) ++ '@' :: d) =
      EMAIL_PATTERNS.FIRST_INITIAL_LAST := by
    simp only [getEmailFormat]
    rw [lp4, if_neg (Ne.symm d04), if_neg (Ne.symm d14), if_pos rfl]
  have e5 : getEmailFormat fn ln ((normalizeName fn ++ (normalizeName ln).take 1) ++ '@' :: d) =
      "custom".data := by
    simp only [getEmailFormat]
    rw [lp5, if_neg (Ne.symm d05), if_neg (Ne.symm d15), if_neg (Ne.symm d45), if_neg d57,
      if_neg d56, if_neg (Ne.symm d25), if_neg (Ne.symm d35), if_neg d510, if_neg d58,
      if_neg d59]
  have e6 : getEmailFormat fn ln (((normalizeName fn).take 1 ++ '.' :: normalizeName ln) ++ '@' :: d) =
      EMAIL_PATTERNS.FIRST_INITIAL_DOT_LAST := by
    simp only [getEmailFormat]
    rw [lp6, if_neg (Ne.symm d06), if_neg (Ne.symm d16), if_neg (Ne.symm d46), if_neg d67,
      if_pos rfl]
  have e7 : getEmailFormat fn ln ((normalizeName fn ++ '.' :: (normalizeName ln).take 1) ++ '@' :: d) =
      EMAIL_PATTERNS.FIRST_DOT_LAST_INITIAL := by
    simp only [getEmailFormat]
    rw [lp7, if_neg (Ne.symm d07), if_neg (Ne.symm d17), if_neg (Ne.symm d47), if_pos rfl]
  have e8 : getEmailFormat fn ln ((normalizeName ln ++ '.' :: normalizeName fn) ++ '@' :: d) =
      EMAIL_PATTERNS.LAST_DOT_FIRST := by
    simp only [getEmailFormat]
    rw [lp8, if_neg (Ne.symm d08), if_neg (Ne.symm d18), if_neg (Ne.symm d48),
      if_neg (Ne.symm d78), if_neg (Ne.symm d68), if_neg (Ne.symm d28), if_neg (Ne.symm d38),
      if_neg d810, if_pos rfl]
  have e9 : getEmailFormat fn ln ((normalizeName ln ++ normalizeName fn) ++ '@' :: d) =
      EMAIL_PATTERNS.LAST_FIRST := by
    simp only [getEmailFormat]
    rw [lp9, if_neg (Ne.symm d09), if_neg (Ne.symm d19), if_neg (Ne.symm d49),
      if_neg (Ne.symm d79), if_neg (Ne.symm d69), if_neg (Ne.symm d29), if_neg (Ne.symm d39),
      if_neg d910, if_neg (Ne.symm d89), if_pos rfl]
  have e10 : getEmailFormat fn ln (((normalizeName fn).take 1 ++ (normalizeName ln).take 1) ++ '@' :: d) =
      EMAIL_PATTERNS.FIRST_INITIAL_LAST_INITIAL := by
    simp only [getEmailFormat]
    rw [lp10, if_neg (Ne.symm d010), if_neg (Ne.symm d110), if_neg (Ne.symm d410),
      if_neg (Ne.symm d710), if_neg (Ne.symm d610), if_neg (Ne.symm d210),
      if_neg (Ne.symm d310), if_pos rfl]
  simp only [generatePossibleEmails, List.map_cons, List.map_nil]
  rw [e0, e1, e2, e3, e4, e5, e6, e7, e8, e9, e10]

theorem take_three {α : Type} (a b c : α) (l : List α) : (a :: b :: c :: l).take 3 = [a, b, c] := rfl

theorem stepEvent_settled (f t : List Char) (s : ClientState) (v : Settled)
    (hs : s.settled = some v) (e : SockEvent) : (stepEvent f t s e).settled = some v := by
  cases e with
  | data r =>
    simp only [stepEvent, onData]
    repeat' split
    all_goals simp_all [settle]
  | sockError msg => simp [stepEvent, settle, hs]
  | timeout => simp [stepEvent, settle, hs]
  | close => simp [stepEvent, settle, hs]

theorem foldl_settled (f t : List Char) (v : Settled) :
    ∀ (events : List SockEvent) (s : ClientState), s.settled = some v →
      (events.foldl (stepEvent f t) s).settled = some v := by
  intro events
  induction events with
  | nil => intro s hs; simpa using hs
  | cons e es ih =>
    intro s hs
    exact ih _ (stepEvent_settled f t s v hs e)

theorem checkCatchAllAttempts_error (env : NetEnv) (domain fromEmail : List Char)
    (options : VerifyOptions) (rc : Nat) (next : Option CatchAllResult)
    (hnext : ∀ res, next = some res → res.hasCatchAll = true → res.error = none) :
    ∀ res, checkCatchAllAttempts env domain fromEmail options rc next = res →
      res.hasCatchAll = true → res.error = none := by
  intro res heq h
  simp only [checkCatchAllAttempts] at heq
  cases hmx : getMxRecords env domain with
  | nil =>
    simp only [hmx] at heq
    rw [← heq] at h
    simp at h
  | cons ms rest =>
    simp only [hmx] at heq
    cases hat : env.attempt ms (natOr options.port 25) false with
    | ok accepted =>
      simp only [hat] at heq
      rw [← heq]
    | err msg =>
      simp only [hat] at heq
      by_cases hg : 0 < rc ∧ isConnErr msg = true
      · simp only [if_pos hg] at heq
        cases h587 : env.attempt ms 587 false with
        | ok accepted =>
          simp only [h587] at heq
          rw [← heq]
        | err m2 =>
          simp only [h587] at heq
          cases h465 : env.attempt ms 465 true with
          | ok accepted =>
            simp only [h465] at heq
            rw [← heq]
          | err m3 =>
            simp only [h465] at heq
            cases next with
            | none =>
              rw [← heq] at h
              simp at h
            | some nxt =>
              by_cases hlen : 1 < (ms :: rest).length
              · simp only [if_pos hlen] at heq
                subst heq
                exact hnext _ rfl h
              · simp only [if_neg hlen] at heq
                rw [← heq] at h
                simp at h
      · simp only [if_neg hg] at heq
        rw [← heq] at h
        simp at h

theorem checkCatchAllRec_error (env : NetEnv) (domain fromEmail : List Char)
    (options : VerifyOptions) :
    ∀ rc, (checkCatchAllRec env domain fromEmail options rc).hasCatchAll = true →
      (checkCatchAllRec env domain fromEmail options rc).error = none := by
  intro rc
  induction rc with
  | zero =>
    exact checkCatchAllAttempts_error env domain fromEmail options 0 none
      (fun res hres => by cases hres) _ rfl
  | succ n ih =>
    refine checkCatchAllAttempts_error env domain fromEmail options (n + 1) _ ?_ _ rfl
    intro res hres hca
    by_cases hn : 1 ≤ n
    · rw [if_pos hn] at hres
      injection hres with hres
      rw [← hres] at hca ⊢
      exact ih hca
    · rw [if_neg hn] at hres
      cases hres

theorem checkCatchAll_error (env : NetEnv) (domain fromEmail : List Char)
    (options : VerifyOptions)
    (h : (checkCatchAll env domain fromEmail options).hasCatchAll = true) :
    (checkCatchAll env domain fromEmail options).error = none := by
  by_cases hs : options.simulationMode = true
  · simp [checkCatchAll, hs]
  · simp only [checkCatchAll, hs, Bool.false_eq_true, if_false] at h ⊢
    exact checkCatchAllRec_error env domain fromEmail options _ h

theorem insertSorted_partition {α : Type} (p : α → Bool) (a : α) :
    ∀ (ts fs : List α), (∀ x ∈ ts, p x = true) → (∀ x ∈ fs, p x = false) →
      insertSorted (fun a b => !p b || p a) a (ts ++ fs) =
        if p a then a :: (ts ++ fs) else ts ++ a :: fs := by
  intro ts
  induction ts with
  | nil =>
    intro fs _ hfs
    cases fs with
    | nil => simp [insertSorted]
    | cons b bs =>
      have hb : p b = false := hfs b (List.mem_cons_self _ _)
      cases hpa : p a <;> simp [insertSorted, hb, hpa]
  | cons t ts ih =>
    intro fs hts hfs
    have ht : p t = true := hts t (List.mem_cons_self _ _)
    have hts' : ∀ x ∈ ts, p x = true := fun x hx => hts x (List.mem_cons_of_mem _ hx)
    cases hpa : p a
    · simp [insertSorted, ht, hpa, ih fs hts' hfs]
    · simp [insertSorted, ht, hpa]

theorem stableSort_partition {α : Type} (p : α → Bool) (l : List α) :
    stableSort (fun a b => !p b || p a) l = l.filter p ++ l.filter (fun x => !p x) := by
  induction l with
  | nil => simp [stableSort]
  | cons a as ih =>
    have h := insertSorted_partition p a (as.filter p) (as.filter fun x => !p x)
      (fun x hx => (List.mem_filter.mp hx).2)
      (fun x hx => by
        have hb := (List.mem_filter.mp hx).2
        revert hb
        cases p x <;> simp)
    simp only [stableSort, ih, h]
    cases hpa : p a
    · simp [List.filter_cons, hpa]
    · simp [List.filter_cons, hpa]

theorem cmpExists_le (a b : GuessEntry) :
    (decide (cmpExists a b ≤ 0)) = (!b.exists_ || a.exists_) := by
  cases ha : a.exists_ <;> cases hb : b.exists_ <;> simp [cmpExists, ha, hb]

/-- C1 (amended): with a 3-host resolved route, `retryCount = 2`, and a
connection-class failure on every session attempt, `verifyEmail` performs exactly
6 session attempts — two three-port sequences (default port, 587, 465), both
against the first host of the re-resolved route, since the fallback recursion
retries `mxRecords[0]` rather than popping the next host — decrementing the
retry budget once, and returns a negative existence result carrying the
connection-failure explanation, with no further recursion. -/
theorem claim_C1_amended (env : NetEnv) (email fromEmail : List Char) (options : VerifyOptions)
    (h1 h2 h3 : List Char)
    (hmx : getMxRecords env (emailDomain email) = [h1, h2, h3])
    (hsim : options.simulationMode = false)
    (hrc : options.retryCount = some 2)
    (hfail : ∀ host port tls, ∃ m, env.attempt host port tls = .err m ∧ isConnErr m = true) :
    verifyEmail env email fromEmail options =
      ({ exists_ := false, isGoogleMail := some (isGoogleHost h1),
         error := some (unableMsg (emailDomain email)) },
       [⟨h1, natOr options.port 25, false⟩, ⟨h1, 587, false⟩, ⟨h1, 465, false⟩,
        ⟨h1, natOr options.port 25, false⟩, ⟨h1, 587, false⟩, ⟨h1, 465, false⟩]) := by
  obtain ⟨m1, hm1, hc1⟩ := hfail h1 (natOr options.port 25) false
  obtain ⟨m2, hm2, hc2⟩ := hfail h1 587 false
  obtain ⟨m3, hm3, hc3⟩ := hfail h1 465 false
  have hrc2 : natOr options.retryCount 2 = 2 := by rw [hrc]; decide
  simp +decide [verifyEmail, hrc2, verifyEmailRec, verifyEmailAttempts, hmx, hsim,
    hm1, hm2, hm3, hc1]

/-- C1 counterexample: in the claim's exact scenario (3-host route, every
port of every host failing with a connection-class error, `retryCount = 2`)
the orchestrator makes 6 session attempts, not 9, and every attempt targets
the first host of the route. -/
theorem claim_C1_counterexample :
    (verifyEmail envAllFail ("user@example.com".data) ("test@example.com".data)
        { retryCount := some 2 }).2.length = 6
    ∧ (verifyEmail envAllFail ("user@example.com".data) ("test@example.com".data)
        { retryCount := some 2 }).2.length ≠ 9
    ∧ (verifyEmail envAllFail ("user@example.com".data) ("test@example.com".data)
        { retryCount := some 2 }).2.map (·.host) = List.replicate 6 ("mx1.example.com".data)
    ∧ (verifyEmail envAllFail ("user@example.com".data) ("test@example.com".data)
        { retryCount := some 2 }).1 =
      { exists_ := false, isGoogleMail := some false,
        error := some (unableMsg ("example.com".data)) } := by
  exact ⟨by decide, by decide, by decide, by decide⟩

/-- C1 witness: the amended statement instantiated at a concrete three-host
environment whose every attempt times out. -/
theorem claim_C1_witness :
    verifyEmail envAllFail ("user@example.com".data) ("test@example.com".data)
        { retryCount := some 2 } =
      ({ exists_ := false, isGoogleMail := some (isGoogleHost ("mx1.example.com".data)),
         error := some (unableMsg (emailDomain ("user@example.com".data))) },
       [⟨"mx1.example.com".data, 25, false⟩, ⟨"mx1.example.com".data, 587, false⟩,
        ⟨"mx1.example.com".data, 465, false⟩, ⟨"mx1.example.com".data, 25, false⟩,
        ⟨"mx1.example.com".data, 587, false⟩, ⟨"mx1.example.com".data, 465, false⟩]) := by
  have h := claim_C1_amended envAllFail ("user@example.com".data) ("test@example.com".data)
    { retryCount := some 2 } ("mx1.example.com".data) ("mx2.example.com".data)
    ("mx3.example.com".data) (by decide) rfl rfl
    (fun host port tls => ⟨"connect ETIMEDOUT 93.184.216.34:25".data, rfl, by decide⟩)
  simpa [natOr] using h

/-- C2 (amended): `generatePossibleEmails` always returns exactly 11 addresses;
whenever both names normalize to non-empty strings, each address is
`local@domain` with a non-empty local part over `[a-z0-9.]`; and the 11
addresses are pairwise distinct provided additionally the normalized names have
length at least 2 and satisfy the separation conditions (unequal, non-commuting
concatenations, and no name coinciding with an initial-built variant). -/
theorem claim_C2_amended (fn ln d : List Char) :
    (generatePossibleEmails fn ln d).length = 11
    ∧ (normalizeName fn ≠ [] → normalizeName ln ≠ [] →
        ∀ e ∈ generatePossibleEmails fn ln d, matchesLocalShape d e)
    ∧ (2 ≤ (normalizeName fn).length → 2 ≤ (normalizeName ln).length →
        normalizeName fn ≠ normalizeName ln →
        normalizeName fn ++ normalizeName ln ≠ normalizeName ln ++ normalizeName fn →
        normalizeName fn ≠ (normalizeName fn).take 1 ++ normalizeName ln →
        normalizeName ln ≠ normalizeName fn ++ (normalizeName ln).take 1 →
        (normalizeName fn).take 1 ++ normalizeName ln ≠
          normalizeName fn ++ (normalizeName ln).take 1 →
        normalizeName fn ≠ (normalizeName fn).take 1 ++ (normalizeName ln).take 1 →
        normalizeName ln ≠ (normalizeName fn).take 1 ++ (normalizeName ln).take 1 →
        (generatePossibleEmails fn ln d).Nodup) := by
  refine ⟨by simp [generatePossibleEmails], gen_shapes fn ln d, ?_⟩
  intro hf2 hl2 hne hcomm hfi hli hx hfii hlii
  exact gen_nodup fn ln d
    ⟨dot_not_mem_normalizeName fn, dot_not_mem_normalizeName ln, hf2, hl2,
     hne, hcomm, hfi, hli, hx, hfii, hlii⟩

/-- C2 counterexample: with `firstName = "j"` and `lastName = "doe"` both names
normalize to non-empty strings, yet the generated list contains a duplicate
(`j.doe@example.com` arises twice), refuting the claimed distinctness; and with
empty names the second generated address is `@x`, whose local part is empty,
refuting the claimed shape. -/
theorem claim_C2_counterexample :
    (normalizeName ("j".data) ≠ [] ∧ normalizeName ("doe".data) ≠ [] ∧
      ¬ (generatePossibleEmails ("j".data) ("doe".data) ("example.com".data)).Nodup)
    ∧ ¬ matchesLocalShape ("x".data) ((generatePossibleEmails ("".data) ("".data) ("x".data)).getD 1 []) := by
  refine ⟨⟨by decide, by decide, by decide⟩, ?_⟩
  have hv : (generatePossibleEmails ("".data) ("".data) ("x".data)).getD 1 [] = '@' :: "x".data := by
    decide
  rw [hv]
  rintro ⟨loc, heq, hlne, -⟩
  have hlen := congrArg List.length heq
  simp only [List.length_cons, List.length_append] at hlen
  exact hlne (List.eq_nil_of_length_eq_zero (by omega))

/-- C2 witness: the amended statement instantiated at `("john", "doe",
"example.com")`, with the non-emptiness, length and separation hypotheses of
its conjuncts discharged there. -/
theorem claim_C2_witness :
    (generatePossibleEmails "john".data "doe".data "example.com".data).length = 11
    ∧ (∀ e ∈ generatePossibleEmails "john".data "doe".data "example.com".data,
        matchesLocalShape "example.com".data e)
    ∧ (generatePossibleEmails "john".data "doe".data "example.com".data).Nodup :=
  ⟨(claim_C2_amended "john".data "doe".data "example.com".data).1,
   (claim_C2_amended "john".data "doe".data "example.com".data).2.1
     (by decide) (by decide),
   (claim_C2_amended "john".data "doe".data "example.com".data).2.2
     (by decide) (by decide) (by decide) (by decide) (by decide) (by decide) (by decide)
     (by decide) (by decide)⟩

/-- C3 (amended): under the separation hypotheses on the normalized names,
re-deriving the format of each generated candidate yields the generating
template's tag for every candidate except the sixth (`first + lastInitial`),
which `getEmailFormat` does not recognize and tags `custom`; the third and
seventh tags coincide as the string `f.last` since `EMAIL_PATTERNS` assigns
that value to both initial-based templates. -/
theorem claim_C3_amended (fn ln d : List Char)
    (hf2 : 2 ≤ (normalizeName fn).length) (hl2 : 2 ≤ (normalizeName ln).length)
    (hne : normalizeName fn ≠ normalizeName ln)
    (hcomm : normalizeName fn ++ normalizeName ln ≠ normalizeName ln ++ normalizeName fn)
    (hfi : normalizeName fn ≠ (normalizeName fn).take 1 ++ normalizeName ln)
    (hli : normalizeName ln ≠ normalizeName fn ++ (normalizeName ln).take 1)
    (hx : (normalizeName fn).take 1 ++ normalizeName ln ≠
      normalizeName fn ++ (normalizeName ln).take 1)
    (hfii : normalizeName fn ≠ (normalizeName fn).take 1 ++ (normalizeName ln).take 1)
    (hlii : normalizeName ln ≠ (normalizeName fn).take 1 ++ (normalizeName ln).take 1) :
    (generatePossibleEmails fn ln d).map (getEmailFormat fn ln) =
      [EMAIL_PATTERNS.FIRST_DOT_LAST, EMAIL_PATTERNS.FIRST_LAST, EMAIL_PATTERNS.FIRST,
       EMAIL_PATTERNS.LAST, EMAIL_PATTERNS.FIRST_INITIAL_LAST, "custom".data,
       EMAIL_PATTERNS.FIRST_INITIAL_DOT_LAST, EMAIL_PATTERNS.FIRST_DOT_LAST_INITIAL,
       EMAIL_PATTERNS.LAST_DOT_FIRST, EMAIL_PATTERNS.LAST_FIRST,
       EMAIL_PATTERNS.FIRST_INITIAL_LAST_INITIAL] :=
  getEmailFormat_gen fn ln d
    ⟨dot_not_mem_normalizeName fn, dot_not_mem_normalizeName ln, hf2, hl2,
     hne, hcomm, hfi, hli, hx, hfii, hlii⟩

/-- C3 counterexample: the sixth generated candidate for `("john", "doe")` is
`johnd@example.com` (produced by the `first + lastInitial` template), yet
`getEmailFormat` tags it `custom`, so re-derivation is not a left-inverse of
generation and `custom` does occur on generated candidates. -/
theorem claim_C3_counterexample :
    (generatePossibleEmails ("john".data) ("doe".data) ("example.com".data)).getD 5 [] =
      "johnd@example.com".data
    ∧ getEmailFormat ("john".data) ("doe".data) ("johnd@example.com".data) = "custom".data := by
  exact ⟨by decide, by decide⟩

/-- C3 witness: the amended statement instantiated at `("john", "doe", "example.com")`. -/
theorem claim_C3_witness :
    (generatePossibleEmails ("john".data) ("doe".data) ("example.com".data)).map
        (getEmailFormat ("john".data) ("doe".data)) =
      [EMAIL_PATTERNS.FIRST_DOT_LAST, EMAIL_PATTERNS.FIRST_LAST, EMAIL_PATTERNS.FIRST,
       EMAIL_PATTERNS.LAST, EMAIL_PATTERNS.FIRST_INITIAL_LAST, "custom".data,
       EMAIL_PATTERNS.FIRST_INITIAL_DOT_LAST, EMAIL_PATTERNS.FIRST_DOT_LAST_INITIAL,
       EMAIL_PATTERNS.LAST_DOT_FIRST, EMAIL_PATTERNS.LAST_FIRST,
       EMAIL_PATTERNS.FIRST_INITIAL_LAST_INITIAL] :=
  claim_C3_amended ("john".data) ("doe".data) ("example.com".data)
    (by decide) (by decide) (by decide) (by decide) (by decide) (by decide) (by decide)
    (by decide) (by decide)

/-- C4 (amended): when the session attempt on the default port fails with a
connection-class error and retry budget remains, `verifyEmail` retries the same
host on port 587 and then on port 465, in that fixed order, before giving up on
the host — but the 465 retry does not enable encrypted transport (`useTls`
remains `false` in `verifyEmail`, unlike `checkCatchAll`, which sets it). -/
theorem claim_C4_amended (env : NetEnv) (email fromEmail : List Char) (options : VerifyOptions)
    (rc : Nat) (mailServer : List Char) (restMx : List (List Char)) (m1 m2 : List Char)
    (hmx : getMxRecords env (emailDomain email) = mailServer :: restMx)
    (hsim : options.simulationMode = false)
    (hrc : 0 < rc)
    (h25 : env.attempt mailServer (natOr options.port 25) false = .err m1)
    (hconn : isConnErr m1 = true)
    (h587 : env.attempt mailServer 587 false = .err m2) :
    (verifyEmailRec env email fromEmail options rc).2.take 3 =
      [⟨mailServer, natOr options.port 25, false⟩, ⟨mailServer, 587, false⟩,
       ⟨mailServer, 465, false⟩] := by
  obtain ⟨n, rfl⟩ : ∃ n, rc = n + 1 := ⟨rc - 1, by omega⟩
  cases h465 : env.attempt mailServer 465 false with
  | ok accepted =>
    simp +decide [verifyEmailRec, verifyEmailAttempts, hmx, hsim, h25, h587, hconn, h465]
  | err m3 =>
    by_cases hn : 1 ≤ n
    · simp +decide [verifyEmailRec, verifyEmailAttempts, hmx, hsim, h25, h587, hconn, h465, hn]
      split <;> rfl
    · simp +decide [verifyEmailRec, verifyEmailAttempts, hmx, hsim, h25, h587, hconn, h465, hn,
        take_three]

/-- C4 counterexample: with the default port and 587 failing and 465
succeeding, the attempt ladder of `verifyEmail` is 25, 587, 465 on the same
host, and no attempt — in particular not the 465 one — has encrypted transport
enabled. -/
theorem claim_C4_counterexample :
    (verifyEmail envTwoFail ("user@example.org".data) ("test@example.com".data) {}).2 =
      [⟨"mx.example.org".data, 25, false⟩, ⟨"mx.example.org".data, 587, false⟩,
       ⟨"mx.example.org".data, 465, false⟩]
    ∧ ∀ a ∈ (verifyEmail envTwoFail ("user@example.org".data) ("test@example.com".data) {}).2,
        a.useTls = false := by
  exact ⟨by decide, by decide⟩

/-- C4 witness: the amended statement instantiated at a concrete single-host
environment refusing ports 25 and 587. -/
theorem claim_C4_witness :
    (verifyEmailRec envTwoFail ("user@example.org".data) ("test@example.com".data) {} 2).2.take 3 =
      [⟨"mx.example.org".data, 25, false⟩, ⟨"mx.example.org".data, 587, false⟩,
       ⟨"mx.example.org".data, 465, false⟩] := by
  have h := claim_C4_amended envTwoFail ("user@example.org".data) ("test@example.com".data) {} 2
    ("mx.example.org".data) [] ("connect ECONNREFUSED 93.184.216.34".data)
    ("connect ECONNREFUSED 93.184.216.34".data) (by decide) rfl (by decide) (by decide)
    (by decide) (by decide)
  simpa [natOr] using h

/-- C5 (amended): for a non-simulated Mail-Session Client run, a connection
refusal, timeout, or mid-session socket error arriving while the promise is
unsettled settles it as rejected — never as a resolved `false`; but a clean
connection close while unsettled resolves with the acceptance value recorded so
far, so a resolved `false` arises either from the connection closing before the
handshake completes or from the handshake reaching QUIT and 221 without a 250
reply having been recorded at the recipient step. -/
theorem claim_C5_amended (f t : List Char) (e1 e2 : List SockEvent) (msg : List Char)
    (h : (runClient f t e1).settled = none) :
    (runClient f t (e1 ++ SockEvent.sockError msg :: e2)).settled =
        some (.rejectedSocket msg)
    ∧ (runClient f t (e1 ++ SockEvent.timeout :: e2)).settled = some .rejectedTimeout
    ∧ (runClient f t (e1 ++ SockEvent.close :: e2)).settled =
        some (.resolved (runClient f t e1).emailAccepted)
    ∧ ((runClient f t e1).commandSequence = 4 → ∀ r, containsSeq ("221".data) r = true →
        (runClient f t (e1 ++ SockEvent.data r :: e2)).settled =
          some (.resolved (runClient f t e1).emailAccepted)) := by
  have hsplit : ∀ (ev : SockEvent),
      runClient f t (e1 ++ ev :: e2) =
        e2.foldl (stepEvent f t) (stepEvent f t (runClient f t e1) ev) := by
    intro ev
    simp [runClient, List.foldl_append]
  refine ⟨?_, ?_, ?_, ?_⟩
  · rw [hsplit]
    exact foldl_settled f t _ e2 _ (by simp [stepEvent, settle, h])
  · rw [hsplit]
    exact foldl_settled f t _ e2 _ (by simp [stepEvent, settle, h])
  · rw [hsplit]
    exact foldl_settled f t _ e2 _ (by simp [stepEvent, settle, h])
  · intro hseq r hr
    rw [hsplit]
    refine foldl_settled f t _ e2 _ ?_
    simp [stepEvent, onData, hseq, hr, settle, h]

/-- C5 counterexample: a clean connection close right after the greeting
resolves the promise with `false` even though the handshake never reached QUIT,
refuting the claim that a resolved `false` only arises from a handshake that
completed to QUIT. -/
theorem claim_C5_counterexample :
    (runClient ("probe@from.test".data) ("user@to.test".data)
        [SockEvent.data ("220 mail.to.test ESMTP".data), SockEvent.close]).settled =
      some (.resolved false)
    ∧ "QUIT".data ∉ (runClient ("probe@from.test".data) ("user@to.test".data)
        [SockEvent.data ("220 mail.to.test ESMTP".data), SockEvent.close]).sent := by
  exact ⟨by decide, by decide⟩

/-- C5 witness: the amended statement instantiated after a concrete greeting
event, with a concrete socket-error message. -/
theorem claim_C5_witness :
    (runClient ("probe@from.test".data) ("user@to.test".data)
        ([SockEvent.data ("220 ok".data)] ++ SockEvent.sockError ("read ECONNRESET".data) :: [])).settled
      = some (.rejectedSocket ("read ECONNRESET".data))
    ∧ (runClient ("probe@from.test".data) ("user@to.test".data)
        ([SockEvent.data ("220 ok".data)] ++ SockEvent.timeout :: [])).settled =
        some .rejectedTimeout
    ∧ (runClient ("probe@from.test".data) ("user@to.test".data)
        ([SockEvent.data ("220 ok".data)] ++ SockEvent.close :: [])).settled =
        some (.resolved (runClient ("probe@from.test".data) ("user@to.test".data)
          [SockEvent.data ("220 ok".data)]).emailAccepted)
    ∧ ((runClient ("probe@from.test".data) ("user@to.test".data)
          [SockEvent.data ("220 ok".data)]).commandSequence = 4 →
        ∀ r, containsSeq ("221".data) r = true →
        (runClient ("probe@from.test".data) ("user@to.test".data)
          ([SockEvent.data ("220 ok".data)] ++ SockEvent.data r :: [])).settled =
          some (.resolved (runClient ("probe@from.test".data) ("user@to.test".data)
            [SockEvent.data ("220 ok".data)]).emailAccepted)) :=
  claim_C5_amended ("probe@from.test".data) ("user@to.test".data)
    [SockEvent.data ("220 ok".data)] [] ("read ECONNRESET".data) (by decide)

/-- C6 (amended): after the greeting, only the recipient-ack state
(`commandSequence = 3`) treats a mismatched reply as a terminal negative —
recording no acceptance but still sending QUIT and advancing; a mismatched
reply at the identification-ack or sender-ack state (and at the greeting and
close-wait states) leaves the session state unchanged apart from the receive
buffer, so the session stalls there until timeout or close. -/
theorem claim_C6_amended (f t : List Char) (s : ClientState) (r : List Char) :
    (s.commandSequence = 0 → containsSeq ("220".data) r = false →
        stepEvent f t s (.data r) = { s with buffer := s.buffer ++ r })
    ∧ (s.commandSequence = 1 → containsSeq ("250".data) r = false →
        stepEvent f t s (.data r) = { s with buffer := s.buffer ++ r })
    ∧ (s.commandSequence = 2 → containsSeq ("250".data) r = false →
        stepEvent f t s (.data r) = { s with buffer := s.buffer ++ r })
    ∧ (s.commandSequence = 3 → containsSeq ("250".data) r = false →
        stepEvent f t s (.data r) =
          { s with buffer := s.buffer ++ r, sent := s.sent ++ ["QUIT".data],
                   commandSequence := 4 })
    ∧ (s.commandSequence = 4 → containsSeq ("221".data) r = false →
        stepEvent f t s (.data r) = { s with buffer := s.buffer ++ r }) := by
  refine ⟨?_, ?_, ?_, ?_, ?_⟩
  · intro hseq hr
    simp [stepEvent, onData, hseq, hr]
  · intro hseq hr
    simp [stepEvent, onData, hseq, hr]
  · intro hseq hr
    simp [stepEvent, onData, hseq, hr]
  · intro hseq hr
    simp [stepEvent, onData, hseq, hr]
  · intro hseq hr
    simp [stepEvent, onData, hseq, hr]

/-- C6 counterexample: a non-250 reply at the identification-ack state
(after EHLO) leaves the session stalled — no QUIT is sent and the promise stays
unsettled — refuting the claim that every post-greeting state proceeds to QUIT
on a mismatched reply. -/
theorem claim_C6_counterexample :
    runClient ("probe@from.test".data) ("user@to.test".data)
        [SockEvent.data ("220 mx ready".data), SockEvent.data ("500 syntax error".data)] =
      { buffer := "220 mx ready".data ++ "500 syntax error".data, commandSequence := 1,
        emailAccepted := false, sent := ["EHLO checkeremail.com".data], settled := none } := by
  decide

/-- C6 witness: the amended statement instantiated at concrete states in the
identification-ack and recipient-ack stages. -/
theorem claim_C6_witness :
    stepEvent ("probe@from.test".data) ("user@to.test".data)
        { buffer := [], commandSequence := 1, emailAccepted := false,
          sent := ["EHLO checkeremail.com".data], settled := none }
        (.data ("502 command not implemented".data)) =
      { buffer := "502 command not implemented".data, commandSequence := 1,
        emailAccepted := false, sent := ["EHLO checkeremail.com".data], settled := none }
    ∧ stepEvent ("probe@from.test".data) ("user@to.test".data)
        { buffer := [], commandSequence := 3, emailAccepted := false,
          sent := [], settled := none } (.data ("550 mailbox unavailable".data)) =
      { buffer := "550 mailbox unavailable".data, commandSequence := 4,
        emailAccepted := false, sent := ["QUIT".data], settled := none } := by
  constructor
  · have h := (claim_C6_amended ("probe@from.test".data) ("user@to.test".data)
      { buffer := [], commandSequence := 1, emailAccepted := false,
        sent := ["EHLO checkeremail.com".data], settled := none }
      ("502 command not implemented".data)).2.1 rfl (by decide)
    simpa using h
  · have h := (claim_C6_amended ("probe@from.test".data) ("user@to.test".data)
      { buffer := [], commandSequence := 3, emailAccepted := false,
        sent := [], settled := none } ("550 mailbox unavailable".data)).2.2.2.1 rfl (by decide)
    simpa using h

/-- C7 (amended): whenever the Catch-All Detector reports
`hasCatchAll = true`, `guessEmail` skips verification entirely and returns all
11 generated candidates, each marked `exists = true` — with format tag
`unknown (catch-all domain)`, not `unknown (catch-all)` as the claim states. -/
theorem claim_C7_amended (env : NetEnv) (firstName lastName domain fromEmail : List Char)
    (options : VerifyOptions)
    (hca : (checkCatchAll env domain fromEmail options).hasCatchAll = true) :
    (guessEmail env firstName lastName domain fromEmail options).hasCatchAll = true
    ∧ (guessEmail env firstName lastName domain fromEmail options).guessedEmails =
        (generatePossibleEmails firstName lastName domain).map (fun email =>
          { email := email, exists_ := true, format := "unknown (catch-all domain)".data })
    ∧ ∀ g ∈ (guessEmail env firstName lastName domain fromEmail options).guessedEmails,
        g.exists_ = true ∧ g.format = "unknown (catch-all domain)".data := by
  have herr : (checkCatchAll env domain fromEmail options).error = none :=
    checkCatchAll_error env domain fromEmail options hca
  refine ⟨?_, ?_, ?_⟩
  · simp [guessEmail, herr, hca]
  · simp [guessEmail, herr, hca]
  · intro g hg
    simp [guessEmail, herr, hca] at hg
    obtain ⟨e, -, rfl⟩ := hg
    exact ⟨rfl, rfl⟩

/-- C7 counterexample: on a catch-all domain every returned format tag is the
string `unknown (catch-all domain)`, which differs from the claim's tag
`unknown (catch-all)`. -/
theorem claim_C7_counterexample :
    ((guessEmail envPlain ("john".data) ("doe".data) ("example.com".data) ("test@example.com".data)
        { simulationMode := true, simulationResult := some true }).guessedEmails.map
          (·.format))
      = List.replicate 11 ("unknown (catch-all domain)".data)
    ∧ "unknown (catch-all domain)".data ≠ "unknown (catch-all)".data := by
  exact ⟨by decide, by decide⟩

/-- C7 witness: the amended statement instantiated under simulation with a
simulated catch-all outcome. -/
theorem claim_C7_witness :
    (guessEmail envPlain ("john".data) ("doe".data) ("example.com".data) ("test@example.com".data)
        { simulationMode := true, simulationResult := some true }).hasCatchAll = true
    ∧ (guessEmail envPlain ("john".data) ("doe".data) ("example.com".data) ("test@example.com".data)
        { simulationMode := true, simulationResult := some true }).guessedEmails =
        (generatePossibleEmails ("john".data) ("doe".data) ("example.com".data)).map (fun email =>
          { email := email, exists_ := true, format := "unknown (catch-all domain)".data })
    ∧ ∀ g ∈ (guessEmail envPlain ("john".data) ("doe".data) ("example.com".data)
        ("test@example.com".data)
        { simulationMode := true, simulationResult := some true }).guessedEmails,
        g.exists_ = true ∧ g.format = "unknown (catch-all domain)".data :=
  claim_C7_amended envPlain ("john".data) ("doe".data) ("example.com".data) ("test@example.com".data)
    { simulationMode := true, simulationResult := some true } (by decide)

/-- C8: `guessEmail`'s final ranking is a stable partition by the `exists`
flag — the returned list is exactly the `exists = true` entries of the
pre-ranking results in their original relative order, followed by the
`exists = false` entries in their original relative order. -/
theorem claim_C8 (env : NetEnv) (firstName lastName domain fromEmail : List Char)
    (options : VerifyOptions) (hsim : options.simulationMode = false)
    (herr : (checkCatchAll env domain fromEmail options).error = none)
    (hca : (checkCatchAll env domain fromEmail options).hasCatchAll = false) :
    (guessEmail env firstName lastName domain fromEmail options).guessedEmails =
      (guessEmailResults env firstName lastName domain fromEmail options).filter (·.exists_)
        ++ (guessEmailResults env firstName lastName domain fromEmail options).filter
            (fun g => !g.exists_) := by
  have hsort : (fun a b : GuessEntry => decide (cmpExists a b ≤ 0)) =
      (fun a b : GuessEntry => !b.exists_ || a.exists_) := by
    funext a b
    exact cmpExists_le a b
  simp only [guessEmail, herr, hca, hsim]
  simp only [Option.isSome_none, Bool.false_eq_true, if_false]
  rw [hsort]
  exact stableSort_partition (fun g : GuessEntry => g.exists_) _

/-- C8 witness: the stable-partition statement instantiated at a concrete
environment whose every recipient probe is rejected. -/
theorem claim_C8_witness :
    (guessEmail envPlain ("john".data) ("doe".data) ("plain.test".data)
        ("probe@from.test".data) {}).guessedEmails =
      (guessEmailResults envPlain ("john".data) ("doe".data) ("plain.test".data)
          ("probe@from.test".data) {}).filter (·.exists_)
        ++ (guessEmailResults envPlain ("john".data) ("doe".data) ("plain.test".data)
            ("probe@from.test".data) {}).filter (fun g => !g.exists_) :=
  claim_C8 envPlain ("john".data) ("doe".data) ("plain.test".data) ("probe@from.test".data) {}
    rfl (by decide) (by decide)

/-- C9: mail-route resolution failure is non-exceptional and short-circuits
probing — `getMxRecords` returns `[]` (never throws) when resolution errors or
yields no records, and `verifyEmail` on a domain with an empty resolved route
immediately returns `exists = false` with the `No MX records found` error and
makes no session attempt. -/
theorem claim_C9 (env : NetEnv) :
    (∀ domain e, env.resolveMx domain = .error e → getMxRecords env domain = [])
    ∧ (∀ domain, env.resolveMx domain = .ok [] → getMxRecords env domain = [])
    ∧ (∀ email fromEmail options, getMxRecords env (emailDomain email) = [] →
        verifyEmail env email fromEmail options =
          ({ exists_ := false, error := some (noMxMsg (emailDomain email)) }, [])) := by
  refine ⟨?_, ?_, ?_⟩
  · intro domain e h
    simp [getMxRecords, h]
  · intro domain h
    simp [getMxRecords, h, stableSort]
  · intro email fromEmail options h
    cases hn : natOr options.retryCount 2 with
    | zero => simp [verifyEmail, hn, verifyEmailRec, verifyEmailAttempts, h]
    | succ n => simp [verifyEmail, hn, verifyEmailRec, verifyEmailAttempts, h]

/-- C9 witness: the statement instantiated at a concrete environment whose
resolution yields no records, on domain `example-empty-mx.test`. -/
theorem claim_C9_witness :
    getMxRecords envEmptyMx ("example-empty-mx.test".data) = []
    ∧ verifyEmail envEmptyMx ("a@example-empty-mx.test".data) ("test@example.com".data) {} =
        ({ exists_ := false, error := some (noMxMsg ("example-empty-mx.test".data)) }, []) := by
  constructor
  · exact (claim_C9 envEmptyMx).2.1 ("example-empty-mx.test".data) rfl
  · have h := (claim_C9 envEmptyMx).2.2 ("a@example-empty-mx.test".data)
      ("test@example.com".data) {} (by decide)
    have he : emailDomain ("a@example-empty-mx.test".data) = "example-empty-mx.test".data := by
      decide
    rw [he] at h
    exact h

/-- C10: in `guessEmail`'s simulation mode on a non-catch-all domain (under
simulation the catch-all probe also returns `simulationResult.getD false`, so
this branch requires that value to be `false`), the first generated candidate is
returned with `exists = true` while every other candidate's `exists` equals
`simulationResult.getD false = false`; hence the result list contains exactly
one `exists = true` entry. -/
theorem claim_C10 (env : NetEnv) (firstName lastName domain fromEmail : List Char)
    (options : VerifyOptions) (hsim : options.simulationMode = true)
    (hres : options.simulationResult.getD false = false) :
    ((guessEmail env firstName lastName domain fromEmail options).guessedEmails.map (·.exists_)
      = true :: List.replicate 10 false)
    ∧ (guessEmail env firstName lastName domain fromEmail options).guessedEmails.countP
        (·.exists_) = 1 := by
  have hcc : checkCatchAll env domain fromEmail options =
      { hasCatchAll := false,
        mxRecords := ["simulated-mx.".data ++ domain],
        randomEmail := some (env.randLocal ++ '@' :: domain),
        simulationMode := some true } := by
    simp [checkCatchAll, hsim, hres]
  constructor
  · simp +decide [guessEmail, hcc, hsim, hres, generatePossibleEmails, mapIdxFrom,
      List.replicate]
  · simp +decide [guessEmail, hcc, hsim, hres, generatePossibleEmails, mapIdxFrom,
      List.countP_cons, List.countP_nil]

/-- C10 witness: the statement instantiated with simulation on and
`simulationResult` unset. -/
theorem claim_C10_witness :
    ((guessEmail envPlain ("john".data) ("doe".data) ("example.com".data) ("test@example.com".data)
        { simulationMode := true }).guessedEmails.map (·.exists_)
      = true :: List.replicate 10 false)
    ∧ (guessEmail envPlain ("john".data) ("doe".data) ("example.com".data) ("test@example.com".data)
        { simulationMode := true }).guessedEmails.countP (·.exists_) = 1 :=
  claim_C10 envPlain ("john".data) ("doe".data) ("example.com".data) ("test@example.com".data)
    { simulationMode := true } rfl rfl
